import Mathlib

/-!
Verification development for the binned-likelihood fit engine of
`scripts/fit_helpers.py` (repository `naodell/analysis-tools`).

The embedding follows the source closely:

* numpy 1-D arrays become `List ℝ`; elementwise operations become `List.zipWith`;
  boolean fancy indexing (`xs[mask]`) becomes `maskFilter`;
* the per-category model tensor of `FitData._initialize_fit_tensor`
  (rows `[val, var, delta_plus..., delta_minus...]` per process) becomes `ProcRow`;
* `FitData.mixture_model` and `FitData.objective` are translated step by step;
  the dead first contraction of `mixture_model` (the assignment that is
  immediately overwritten by the shape-morphing contraction) is omitted;
* the single diagnostic/nuisance cache relevant to the objective's value,
  `FitData._bin_np`, is threaded explicitly as state (one list of per-bin
  scale factors per category, in category order);
* numpy division by zero produces non-real IEEE values (`inf`/`nan`) which then
  propagate through every arithmetic operation into the returned cost; a cost
  that is contaminated this way is modelled as `none`;
* the hard rejection `cost = np.inf` for out-of-range branching fractions is an
  assignment that replaces whatever value `cost` had, so the objective returns
  `Option EReal`: `some ⊤` for the infinite rejection, `some ↑x` for a finite
  cost, `none` for a non-real (NaN-contaminated) cost.
-/

namespace FitHelpers

noncomputable section

/-! ## Vector helpers (numpy elementwise array operations) -/

/-- Elementwise sum of two arrays (`x + y` on numpy arrays). -/
def vecAdd (xs ys : List ℝ) : List ℝ := List.zipWith (· + ·) xs ys

/-- Elementwise difference of two arrays (`x - y` on numpy arrays). -/
def vecSub (xs ys : List ℝ) : List ℝ := List.zipWith (· - ·) xs ys

/-- Scalar times array (`c * x` on a numpy array). -/
def vecScale (c : ℝ) (xs : List ℝ) : List ℝ := xs.map (fun x => c * x)

/-- Boolean fancy indexing `xs[mask]` on numpy arrays. -/
def maskFilter {α : Type} (mask : List Bool) (xs : List α) : List α :=
  ((mask.zip xs).filter (fun p => p.1)).map (fun p => p.2)

/-- Contraction of a stack of rows against a weight vector
(`np.tensordot(rows, w, axes=1)` along the row index): `Σ_j w_j · rows_j`,
an `n`-bin array. -/
def dotRows (rows : List (List ℝ)) (w : List ℝ) (n : ℕ) : List ℝ :=
  (List.zipWith vecScale w rows).foldr vecAdd (List.replicate n 0)

/-! ## `signal_amplitudes` (fit_helpers.py lines 37-80) -/

/-- Source `fit_helpers.signal_amplitudes(beta, br_tau, single_w)`: branching-fraction
amplitudes per signal channel, in the source's documented order.
`beta = [beta_e, beta_mu, beta_tau, beta_h]`, `br_tau = [br_e, br_mu, br_h]`. -/
def signal_amplitudes (beta : Fin 4 → ℝ) (br_tau : Fin 3 → ℝ) (single_w : Bool) : List ℝ :=
  if single_w then
    [beta 0,
     beta 1,
     beta 2 * br_tau 0,
     beta 2 * br_tau 1,
     beta 2 * br_tau 2,
     beta 3]
  else
    [beta 0 * beta 0,
     beta 1 * beta 1,
     2 * beta 0 * beta 1,
     beta 2 * beta 2 * br_tau 0 ^ 2,
     beta 2 * beta 2 * br_tau 1 ^ 2,
     2 * beta 2 * beta 2 * br_tau 0 * br_tau 1,
     2 * beta 2 * beta 2 * br_tau 0 * br_tau 2,
     2 * beta 2 * beta 2 * br_tau 1 * br_tau 2,
     beta 2 * beta 2 * br_tau 2 * br_tau 2,
     2 * beta 0 * beta 2 * br_tau 0,
     2 * beta 0 * beta 2 * br_tau 1,
     2 * beta 0 * beta 2 * br_tau 2,
     2 * beta 1 * beta 2 * br_tau 0,
     2 * beta 1 * beta 2 * br_tau 1,
     2 * beta 1 * beta 2 * br_tau 2,
     2 * beta 0 * beta 3,
     2 * beta 1 * beta 3,
     2 * beta 2 * beta 3 * br_tau 0,
     2 * beta 2 * beta 3 * br_tau 1,
     2 * beta 2 * beta 3 * br_tau 2,
     beta 3 * beta 3]

/-- Spec-side definition (for the refinement comparison in claim C2): the six
single-W decay channels, in the order e, mu, tau to e, tau to mu, tau to
hadrons, hadronic, each mapped to its amplitude. -/
def channel_amp (beta : Fin 4 → ℝ) (br_tau : Fin 3 → ℝ) : Fin 6 → ℝ
  | 0 => beta 0
  | 1 => beta 1
  | 2 => beta 2 * br_tau 0
  | 3 => beta 2 * br_tau 1
  | 4 => beta 2 * br_tau 2
  | 5 => beta 3

/-- Spec-side definition (for claim C2): the unordered channel pairs in the
order in which the source enumerates the double-decay amplitudes. -/
def ww_pair_order : List (Fin 6 × Fin 6) :=
  [(0, 0), (1, 1), (0, 1), (2, 2), (3, 3), (2, 3), (2, 4), (3, 4), (4, 4),
   (0, 2), (0, 3), (0, 4), (1, 2), (1, 3), (1, 4),
   (0, 5), (1, 5), (2, 5), (3, 5), (4, 5), (5, 5)]

/-- Spec-side definition (for claim C2): amplitudes built pair-by-pair from
the spec's words, self-pairs unweighted and distinct pairs weighted by 2. -/
def pair_amplitudes (beta : Fin 4 → ℝ) (br_tau : Fin 3 → ℝ) : List ℝ :=
  ww_pair_order.map (fun ij =>
    if ij.1 = ij.2 then channel_amp beta br_tau ij.1 * channel_amp beta br_tau ij.2
    else 2 * channel_amp beta br_tau ij.1 * channel_amp beta br_tau ij.2)

/-! ## `bb_objective_aux` (fit_helpers.py lines 138-145) -/

/-- Source `fit_helpers.bb_objective_aux(params_mc, data_val, exp_val, exp_var)`:
closed-form Barlow-Beeston roots.  The first argument (the cached per-bin
nuisance state) is accepted — with an arbitrary type, as in Python — and never
read, exactly as in the source.  The source divides by `exp_val` with no guard;
in numpy a division by zero yields a non-real IEEE value (`inf`/`nan`) which
contaminates the result, modelled here as `none`. -/
def bb_objective_aux {α : Type} (params_mc : α) (data_val exp_val exp_var : ℝ) :
    Option (ℝ × ℝ) :=
  if exp_val = 0 then none
  else
    let a : ℝ := 1
    let b : ℝ := exp_var / exp_val - 1
    let c : ℝ := -1 * data_val * exp_var / exp_val ^ 2
    some ((-1 * b + Real.sqrt (b ^ 2 - 4 * a * c)) / 2,
          (-1 * b - Real.sqrt (b ^ 2 - 4 * a * c)) / 2)

/-- Elementwise application of `bb_objective_aux` (first roots) over the zipped
per-bin data/model/variance triples, as numpy array arithmetic does; any bin
whose solve is undefined contaminates the whole array. -/
def bb_amp_list {α : Type} (cache : α) : List (ℝ × ℝ × ℝ) → Option (List ℝ)
  | [] => some []
  | t :: ts =>
    match bb_objective_aux cache t.1 t.2.1 t.2.2 with
    | none => none
    | some bb =>
      match bb_amp_list cache ts with
      | none => none
      | some rest => some (bb.1 :: rest)

/-- The per-bin Barlow-Beeston scale factors for a category:
`bb_objective_aux(cache, data_val, model_val, model_var)[0]` of the source. -/
def bb_bin_amps {α : Type} (cache : α) (data_val model_val model_var : List ℝ) :
    Option (List ℝ) :=
  bb_amp_list cache (data_val.zip (model_val.zip model_var))

/-! ## The fit data model (`FitData.__init__` / `_initialize_fit_tensor`) -/

/-- One stacked process slice of the category model tensor
(`process_array = np.vstack([val, var, delta_plus, delta_minus]).T`). -/
structure ProcRow where
  val : List ℝ
  var : List ℝ
  delta_plus : List (List ℝ)
  delta_minus : List (List ℝ)

/-- One entry of `FitData._model_data`: the per-category data templates, model
tensor and masks, plus the frozen per-bin standard-normal draws
(`FitData._rnum_cache`) used by `randomize`. -/
structure CategoryData where
  name : String
  data_val : List ℝ
  data_var : List ℝ
  model : List ProcRow
  process_mask : List Bool
  shape_param_mask : List Bool
  norm_mask : List (List ℝ)
  rnum : List ℝ

/-- The engine state fixed at initialization: parameter counts, initial
parameter values/uncertainties and the per-category model data.  The category
veto list (`FitData.veto_list`) is carried as data. -/
structure FitData where
  npoi : ℕ
  nnorm : ℕ
  pval_init : List ℝ
  perr_init : List ℝ
  categories : List CategoryData
  veto_list : List String

/-- The per-shape-parameter tensor rows stored by
`FitData._initialize_fit_tensor` (lines 291-299): when the up/down template
columns exist and the parameter is active and applies to the process,
`deff_plus = up - val` and `deff_minus = down - val`, else both are zero
arrays; the stored rows are `deff_plus + deff_minus` and
`deff_plus - deff_minus`. -/
def shape_deltas (has_up active applies_ds : Bool) (up down val : List ℝ) :
    List ℝ × List ℝ :=
  let deff_plus := if has_up && active && applies_ds then vecSub up val
    else List.replicate val.length 0
  let deff_minus := if has_up && active && applies_ds then vecSub down val
    else List.replicate val.length 0
  (vecAdd deff_plus deff_minus, vecSub deff_plus deff_minus)

/-! ## `FitData.mixture_model` (fit_helpers.py lines 402-463) -/

/-- The per-process normalization multiplier of `mixture_model` (lines
429-432): `norm_params = norm_mask * norm_params`, then every entry equal to
zero is replaced by one, then the row product is taken. -/
def row_multiplier (row norm_params : List ℝ) : ℝ :=
  (((List.zipWith (· * ·) row norm_params).map (fun x => if x = 0 then 1 else x))).prod

/-- All per-process normalization multipliers for a category. -/
def norm_multipliers (fd : FitData) (cat : CategoryData) (params : List ℝ) : List ℝ :=
  let norm_params := (params.drop fd.npoi).take fd.nnorm
  cat.norm_mask.map (fun row => row_multiplier row norm_params)

/-- The shape-morphing weight vector of `mixture_model` (lines 435-436):
`[1, 0]` followed by `0.5 * s ^ 2` and then `0.5 * s` over the
selection-masked shape parameters. -/
def shape_weights (fd : FitData) (cat : CategoryData) (params : List ℝ) : List ℝ :=
  let shape_params := params.drop (fd.npoi + fd.nnorm)
  let s := maskFilter cat.shape_param_mask shape_params
  [1, 0] ++ s.map (fun x => 0.5 * x ^ 2) ++ s.map (fun x => 0.5 * x)

/-- The contraction of one process slice of the model tensor against the shape
weight vector (`np.tensordot(model_tensor, shape_params_masked, axes=1)`,
restricted to one process). -/
def morph_process (p : ProcRow) (w : List ℝ) (n : ℕ) : List ℝ :=
  dotRows ([p.val, p.var] ++ p.delta_plus ++ p.delta_minus) w n

/-- The initial double-W amplitudes computed once in `FitData.__init__` from
`pval_init[:4]` and `pval_init[4:7]`. -/
def ww_amp_init (fd : FitData) : List ℝ :=
  signal_amplitudes (fun i => fd.pval_init.getD i 0)
    (fun i => fd.pval_init.getD (4 + i) 0) false

/-- The initial single-W amplitudes computed once in `FitData.__init__`. -/
def w_amp_init (fd : FitData) : List ℝ :=
  signal_amplitudes (fun i => fd.pval_init.getD i 0)
    (fun i => fd.pval_init.getD (4 + i) 0) true

/-- The full 72-entry process amplitude vector built by `objective` (lines
489-492) and by `mixture_model` when none is passed in: current over initial
double-W ratios for the three double-W processes, the single-W ratios for
`wjets`, and unit amplitudes for the three background processes. -/
def process_amplitudes_of (fd : FitData) (params : List ℝ) : List ℝ :=
  let beta := fun i : Fin 4 => params.getD i 0
  let br_tau := fun i : Fin 3 => params.getD (4 + i) 0
  let ww_amp := List.zipWith (· / ·) (signal_amplitudes beta br_tau false) (ww_amp_init fd)
  let w_amp := List.zipWith (· / ·) (signal_amplitudes beta br_tau true) (w_amp_init fd)
  ww_amp ++ ww_amp ++ ww_amp ++ w_amp ++ [1, 1, 1]

/-- Source `FitData.mixture_model(params, category, process_amplitudes, randomize)`
for the summed (`no_sum=False`) case used by the objective: returns the
predicted per-bin values and the per-bin variance.  The variance is the plain
sum of the raw per-process variance rows (`model_tensor[:,:,1].sum(axis=0)`),
with no amplitude or normalization rescaling. -/
def mixture_model (fd : FitData) (params : List ℝ) (cat : CategoryData)
    (process_amplitudes : Option (List ℝ)) (randomize : Bool) : List ℝ × List ℝ :=
  let nbins := cat.data_val.length
  let norm_params := norm_multipliers fd cat params
  let w := shape_weights fd cat params
  let pa := process_amplitudes.getD (process_amplitudes_of fd params)
  let pa_masked := maskFilter cat.process_mask pa
  let pa_scaled := List.zipWith (· * ·) norm_params pa_masked
  let morphed := cat.model.map (fun p => morph_process p w nbins)
  let model_val := dotRows morphed pa_scaled nbins
  let model_var := (cat.model.map ProcRow.var).foldr vecAdd (List.replicate nbins 0)
  let model_val2 := if randomize then
      vecAdd model_val (List.zipWith (fun v r => Real.sqrt v * r) model_var cat.rnum)
    else model_val
  (model_val2, model_var)

/-! ## `FitData.objective` (fit_helpers.py lines 465-556) -/

/-- The two cost types accepted by `objective`. -/
inductive CostType where
  | poisson
  | chi2

/-- The Poisson cost of one category (lines 532-535): over the bins passing
the mask `(model > 0) & (data > 0)` the source accumulates
`-data*log(model) + model` and then adds `data*log(data) - data` on the same
mask; masked-out bins contribute nothing. -/
def poisson_nll (data_val model_val : List ℝ) : ℝ :=
  ((data_val.zip model_val).map (fun p =>
    if 0 < p.2 ∧ 0 < p.1 then
      -p.1 * Real.log p.2 + p.2 + (p.1 * Real.log p.1 - p.1)
    else 0)).sum

/-- The chi-square cost of one category (lines 536-538), over the bins with
positive combined variance. -/
def chi2_nll (data_val data_var model_val model_var : List ℝ) : ℝ :=
  (((data_val.zip data_var).zip (model_val.zip model_var)).map (fun t =>
    if 0 < t.1.2 + t.2.2 then 0.5 * (t.1.1 - t.2.1) ^ 2 / (t.1.2 + t.2.2) else 0)).sum

/-- Dispatch on `cost_type`. -/
def nll_of (ct : CostType) (data_val data_var model_val model_var : List ℝ) : ℝ :=
  match ct with
  | CostType.poisson => poisson_nll data_val model_val
  | CostType.chi2 => chi2_nll data_val data_var model_val model_var

/-- The cost contribution of one non-vetoed category (`objective` lines
503-541), threading the category's `_bin_np` cache entry: build the mixture
model, optionally integrate over bins (`no_shape`), optionally apply the
per-bin Barlow-Beeston correction (scaling the model values, storing the new
scale factors and adding the penalty `(1-β)² / (2·var/model²)` computed with
the already-scaled model values), then add the masked Poisson or chi-square
cost.  A Barlow-Beeston solve on a zero model value contaminates the cost with
non-real values (`none`). -/
def category_cost (fd : FitData) (params : List ℝ) (cat : CategoryData)
    (pa : List ℝ) (data : Option (List ℝ × List ℝ)) (ct : CostType)
    (no_shape do_mc_stat randomize : Bool) (cache : List ℝ) : Option ℝ × List ℝ :=
  let mv := mixture_model fd params cat (some pa) randomize
  let dv := data.getD (cat.data_val, cat.data_var)
  let data_val := if no_shape then [dv.1.sum] else dv.1
  let data_var := if no_shape then [dv.2.sum] else dv.2
  let model_val := if no_shape then [mv.1.sum] else mv.1
  let model_var := if no_shape then [mv.2.sum] else mv.2
  if do_mc_stat then
    (bb_bin_amps cache data_val model_val model_var).elim (none, cache) (fun bin_amp =>
      let model_val2 := List.zipWith (· * ·) model_val bin_amp
      let bb_penalty := (bin_amp.zip (model_var.zip model_val2)).map (fun t =>
        (1 - t.1) ^ 2 / (2 * t.2.1 / t.2.2 ^ 2))
      (some (bb_penalty.sum + nll_of ct data_val data_var model_val2 model_var), bin_amp))
  else
    (some (nll_of ct data_val data_var model_val model_var), cache)

/-- The fold over `FitData._model_data` (lines 495-541): vetoed categories are
skipped and their cache entries left untouched; the remaining per-category
costs are accumulated, a contaminated (non-real) contribution contaminating
the total.  The name-keyed `_bin_np` dictionary is modelled positionally, one
cache entry per category in category order. -/
def categories_cost (fd : FitData) (params : List ℝ) (pa : List ℝ)
    (data : Option (String → List ℝ × List ℝ)) (ct : CostType)
    (no_shape do_mc_stat randomize : Bool) :
    List CategoryData → List (List ℝ) → Option ℝ × List (List ℝ)
  | [], cache => (some 0, cache)
  | cat :: cats, cache =>
    if cat.name ∈ fd.veto_list then
      let r := categories_cost fd params pa data ct no_shape do_mc_stat randomize cats cache.tail
      (r.1, cache.headD [] :: r.2)
    else
      let rc := category_cost fd params cat pa (data.map (fun f => f cat.name)) ct
        no_shape do_mc_stat randomize (cache.headD [])
      let r := categories_cost fd params pa data ct no_shape do_mc_stat randomize cats cache.tail
      (rc.1.bind (fun a => r.1.map (fun b => a + b)), rc.2 :: r.2)

/-- The Gaussian prior terms of `objective` (lines 544-545):
`(params[4:] - pval_init[4:])² / (2 * perr_init[4:]²)`, summed. -/
def prior_cost (fd : FitData) (params : List ℝ) : ℝ :=
  (((params.drop 4).zip ((fd.pval_init.drop 4).zip (fd.perr_init.drop 4))).map
    (fun t => (t.1 - t.2.1) ^ 2 / (2 * t.2.2 ^ 2))).sum

/-- The branching-fraction sum constraint of `objective` (lines 549-550):
`(1 - sum(params[:4]))² / 2e-12`. -/
def beta_constraint (params : List ℝ) : ℝ :=
  (1 - (params.take 4).sum) ^ 2 / (2e-12 : ℝ)

open Classical

/-- Source `FitData.objective(params, data, cost_type, no_shape, do_mc_stat,
randomize_templates)`, threading the `_bin_np` cache: per-category costs plus
the nuisance priors plus the branching-fraction constraint; finally, if any of
the first four parameters lies outside the open interval (0, 1), the cost is
overwritten with `np.inf` (so the override wins even over a contaminated
cost). -/
def objective (fd : FitData) (params : List ℝ)
    (data : Option (String → List ℝ × List ℝ)) (ct : CostType)
    (no_shape do_mc_stat randomize_templates : Bool)
    (cache : List (List ℝ)) : Option EReal × List (List ℝ) :=
  let pa := process_amplitudes_of fd params
  let r := categories_cost fd params pa data ct no_shape do_mc_stat randomize_templates
    fd.categories cache
  let total := r.1.map (fun x => x + prior_cost fd params + beta_constraint params)
  ((if ∃ x ∈ params.take 4, x ≤ 0 ∨ 1 ≤ x then some ⊤
    else total.map Real.toEReal), r.2)

/-! ## Concrete instances used for witnesses and counterexamples -/

/-- A seven-parameter vector at the reference point used by `exFit1`. -/
def exParams1 : List ℝ := [1 / 4, 1 / 4, 1 / 4, 1 / 4, 1 / 3, 1 / 3, 1 / 3]

/-- A parameter vector whose first entry lies outside the open interval (0, 1). -/
def exParams4 : List ℝ := [2, 1 / 4, 1 / 4, 1 / 4, 1 / 3, 1 / 3, 1 / 3]

/-- A parameter vector whose single shape parameter has value 2. -/
def exParams6 : List ℝ := [0, 0, 0, 0, 0, 0, 0, 2]

/-- One process template with one bin of nominal value 1 and variance 1. -/
def exProc1 : ProcRow := ⟨[1], [1], [], []⟩

/-- A one-bin category with a single included process of nominal value 1 and
observed count 2 and no nuisance parameters. -/
def exCat1 : CategoryData := ⟨"cat0", [2], [1], [exProc1], [true], [], [[]], [0]⟩

/-- An engine with 7 parameters of interest, no normalization nuisances and the
single category `exCat1`, initialized at `exParams1`. -/
def exFit1 : FitData := ⟨7, 0, exParams1, [1, 1, 1, 1, 1, 1, 1], [exCat1], []⟩

/-- One process template whose nominal value is exactly zero in its only bin. -/
def exProc3 : ProcRow := ⟨[0], [1], [], []⟩

/-- A one-bin category whose model prediction is exactly zero while the
observed count is 1. -/
def exCat3 : CategoryData := ⟨"cat0", [1], [1], [exProc3], [true], [], [[]], [0]⟩

/-- An engine holding the zero-model category `exCat3`. -/
def exFit3 : FitData := ⟨7, 0, exParams1, [1, 1, 1, 1, 1, 1, 1], [exCat3], []⟩

/-- One process template carrying the tensor rows of one shape parameter. -/
def exProc6 : ProcRow := ⟨[1], [1], [[3]], [[5]]⟩

/-- A one-bin category with one applicable shape parameter. -/
def exCat6 : CategoryData := ⟨"cat6", [1], [1], [exProc6], [true], [true], [[]], [0]⟩

/-- An engine with 7 parameters of interest, no normalization nuisances and no
categories, used where only the parameter layout matters. -/
def exFit6 : FitData := ⟨7, 0, exParams1, [1, 1, 1, 1, 1, 1, 1], [], []⟩

/-- A two-bin process template with nominal values 3 and 4. -/
def exProc8 : ProcRow := ⟨[3, 4], [1, 1], [], []⟩

/-- A two-bin category with exactly one included process and no active
nuisance parameters. -/
def exCat8 : CategoryData := ⟨"c8", [5, 6], [1, 1], [exProc8], [true, false], [], [[]], [0, 0]⟩

/-! ## List-arithmetic helper lemmas -/

theorem vecScale_one (xs : List ℝ) : vecScale 1 xs = xs := by
  simp [vecScale]

theorem vecScale_length (c : ℝ) (xs : List ℝ) : (vecScale c xs).length = xs.length := by
  simp [vecScale]

theorem vecScale_replicate_zero (c : ℝ) (n : ℕ) :
    vecScale c (List.replicate n 0) = List.replicate n 0 := by
  simp [vecScale, List.map_replicate]

theorem vecScale_zero (xs : List ℝ) : vecScale 0 xs = List.replicate xs.length 0 := by
  simp [vecScale, List.map_const']

theorem vecAdd_replicate_right (xs : List ℝ) (n : ℕ) (h : xs.length = n) :
    vecAdd xs (List.replicate n 0) = xs := by
  induction xs generalizing n with
  | nil => simp [vecAdd]
  | cons a l ih =>
    subst h
    simpa [vecAdd, List.replicate_succ] using ih l.length rfl

theorem vecAdd_replicate_left (xs : List ℝ) (n : ℕ) (h : xs.length = n) :
    vecAdd (List.replicate n 0) xs = xs := by
  induction xs generalizing n with
  | nil => simp [vecAdd]
  | cons a l ih =>
    subst h
    simpa [vecAdd, List.replicate_succ] using ih l.length rfl

theorem vecSub_replicate_zero (n : ℕ) :
    vecSub (List.replicate n 0) (List.replicate n 0) = List.replicate n 0 := by
  simp [vecSub, List.zipWith_replicate]

theorem vecAdd_length (xs ys : List ℝ) :
    (vecAdd xs ys).length = min xs.length ys.length := by
  simp [vecAdd]

theorem dot_zero_rows (w : List ℝ) (rows : List (List ℝ)) (n : ℕ)
    (h : ∀ r ∈ rows, r = List.replicate n 0) :
    (List.zipWith vecScale w rows).foldr vecAdd (List.replicate n 0) = List.replicate n 0 := by
  induction w generalizing rows with
  | nil => simp
  | cons c w ih =>
    cases rows with
    | nil => simp
    | cons r rs =>
      have hr : r = List.replicate n 0 := h r (by simp)
      have hrec := ih rs (fun r2 hr2 => h r2 (by simp [hr2]))
      simp only [List.zipWith, List.foldr, hrec, hr, vecScale_replicate_zero]
      exact vecAdd_replicate_right _ _ (by simp)

theorem row_multiplier_zero_row (row norm_params : List ℝ) (h : ∀ x ∈ row, x = 0) :
    row_multiplier row norm_params = 1 := by
  induction row generalizing norm_params with
  | nil => simp [row_multiplier]
  | cons a l ih =>
    cases norm_params with
    | nil => simp [row_multiplier]
    | cons b bs =>
      have ha : a = 0 := h a (by simp)
      have hrec := ih bs (fun x hx => h x (by simp [hx]))
      simp only [row_multiplier, List.zipWith, List.map, List.prod_cons] at hrec ⊢
      simp [ha, hrec]

theorem zipWith_mul_eq_map_zip (xs ys : List ℝ) :
    List.zipWith (· * ·) xs ys = (xs.zip ys).map (fun t => t.1 * t.2) := by
  induction xs generalizing ys with
  | nil => simp
  | cons a l ih =>
    cases ys with
    | nil => simp
    | cons b bs => simp [ih]

theorem bb_amp_list_cache_indep {α β : Type} (c : α) (c2 : β) :
    ∀ ts : List (ℝ × ℝ × ℝ), bb_amp_list c ts = bb_amp_list c2 ts := by
  intro ts
  induction ts with
  | nil => rfl
  | cons t l ih =>
    simp only [bb_amp_list, ih]
    rfl

/-! ## Claim C5 -/

/-- Claim C5: for every data value, positive model value and non-negative
model variance, the Barlow-Beeston solve returns the quadratic-formula pair
with `b = var/model - 1` and `c = -data*var/model^2`; the first component is a
genuine root of `beta^2 + b*beta + c = 0` whenever the data value is
non-negative, it always dominates the second root, and at zero variance the
solve returns exactly `beta = 1` (no correction). -/
theorem C5_bb_solve (p d m v : ℝ) (hm : 0 < m) (hv : 0 ≤ v) :
    bb_objective_aux p d m v =
      some ((-1 * (v / m - 1) +
              Real.sqrt ((v / m - 1) ^ 2 - 4 * 1 * (-1 * d * v / m ^ 2))) / 2,
            (-1 * (v / m - 1) -
              Real.sqrt ((v / m - 1) ^ 2 - 4 * 1 * (-1 * d * v / m ^ 2))) / 2)
    ∧ (0 ≤ d →
        ((-1 * (v / m - 1) +
            Real.sqrt ((v / m - 1) ^ 2 - 4 * 1 * (-1 * d * v / m ^ 2))) / 2) ^ 2
          + (v / m - 1) *
            ((-1 * (v / m - 1) +
              Real.sqrt ((v / m - 1) ^ 2 - 4 * 1 * (-1 * d * v / m ^ 2))) / 2)
          + (-1 * d * v / m ^ 2) = 0)
    ∧ ((-1 * (v / m - 1) -
          Real.sqrt ((v / m - 1) ^ 2 - 4 * 1 * (-1 * d * v / m ^ 2))) / 2
        ≤ (-1 * (v / m - 1) +
            Real.sqrt ((v / m - 1) ^ 2 - 4 * 1 * (-1 * d * v / m ^ 2))) / 2)
    ∧ (v = 0 → bb_objective_aux p d m v = some (1, 0)) := by
  have hm0 : m ≠ 0 := ne_of_gt hm
  refine ⟨?_, ?_, ?_, ?_⟩
  · simp only [bb_objective_aux]
    rw [if_neg hm0]
  · intro hd
    have hdisc : 0 ≤ (v / m - 1) ^ 2 - 4 * 1 * (-1 * d * v / m ^ 2) := by
      have h1 : 0 ≤ d * v / m ^ 2 := div_nonneg (mul_nonneg hd hv) (sq_nonneg m)
      have h2 : (v / m - 1) ^ 2 - 4 * 1 * (-1 * d * v / m ^ 2)
          = (v / m - 1) ^ 2 + 4 * (d * v / m ^ 2) := by ring
      rw [h2]
      linarith [sq_nonneg (v / m - 1)]
    have hs := Real.sq_sqrt hdisc
    linear_combination hs / 4
  · have := Real.sqrt_nonneg ((v / m - 1) ^ 2 - 4 * 1 * (-1 * d * v / m ^ 2))
    linarith
  · intro h0
    subst h0
    simp only [bb_objective_aux]
    rw [if_neg hm0]
    norm_num [Real.sqrt_one]

/-- Witness for C5 at `data = 1`, `model = 1`, `variance = 0`. -/
theorem C5_bb_solve_witness : bb_objective_aux (0 : ℝ) 1 1 0 = some (1, 0) :=
  (C5_bb_solve 0 1 1 0 one_pos le_rfl).2.2.2 rfl

/-! ## Claim C3 -/

/-- Claim C3 (amended): at `model_value = 0` the Barlow-Beeston solve is not
skipped — the division by the model value is performed unconditionally, so the
solve produces no real result (`none`, a non-real IEEE value in the source) for
every data value, variance and cached state, and any zero-model bin
contaminates the whole per-category scale-factor array instead of being
treated as `beta = 1`. -/
theorem C3_no_zero_model_guard :
    (∀ (p d v : ℝ), bb_objective_aux p d 0 v = none)
    ∧ ∀ (cache : List ℝ) (ts : List (ℝ × ℝ × ℝ)), (∃ t ∈ ts, t.2.1 = 0) →
        bb_amp_list cache ts = none := by
  constructor
  · intro p d v
    simp [bb_objective_aux]
  · intro cache ts h
    induction ts with
    | nil => rcases h with ⟨t, ht, _⟩; cases ht
    | cons a l ih =>
      rcases h with ⟨t, ht, hz⟩
      rcases List.mem_cons.mp ht with h1 | h2
      · subst h1
        simp only [bb_amp_list]
        rw [hz]
        simp [bb_objective_aux]
      · have hrec := ih ⟨t, h2, hz⟩
        simp only [bb_amp_list, hrec]
        cases bb_objective_aux cache a.1 a.2.1 a.2.2 <;> rfl

/-- Witness for the amended C3: a single bin with data 1, model 0, variance 1
already contaminates the scale-factor array. -/
theorem C3_witness : bb_amp_list ([1] : List ℝ) [((1 : ℝ), ((0 : ℝ), (1 : ℝ)))] = none :=
  C3_no_zero_model_guard.2 [1] [(1, (0, 1))] ⟨(1, (0, 1)), List.mem_cons_self _ _, rfl⟩

/-! ## Claim C2 -/

/-- Claim C2 (amended): for every `beta` and `br_tau`, the double-decay
amplitude vector has exactly 21 entries (not 20), it enumerates every
unordered pair — self-pairs included — of the six decay channels in the
source's order with distinct pairs weighted by a factor of 2 and self-pairs
unweighted, the enumerated pair list covers every unordered pair of the six
channels, and no unordered pair occurs twice. -/
theorem C2_pair_enumeration (beta : Fin 4 → ℝ) (br_tau : Fin 3 → ℝ) :
    (signal_amplitudes beta br_tau false).length = 21
    ∧ signal_amplitudes beta br_tau false = pair_amplitudes beta br_tau
    ∧ (∀ i j : Fin 6, (i, j) ∈ ww_pair_order ∨ (j, i) ∈ ww_pair_order)
    ∧ ww_pair_order.Pairwise (fun a b => a ≠ b ∧ a ≠ (b.2, b.1)) := by
  refine ⟨rfl, ?_, by decide, by decide⟩
  simp +decide [signal_amplitudes, pair_amplitudes, ww_pair_order, channel_amp]
  all_goals and_intros
  all_goals ring

/-- Counterexample for C2 as stated: at a concrete input the double-decay
amplitude vector does not have 20 entries. -/
theorem C2_counterexample :
    (signal_amplitudes (fun _ => (1 : ℝ) / 2) (fun _ => (1 : ℝ) / 3) false).length ≠ 20 := by
  decide

/-! ## Claim C7 -/

/-- Claim C7: the variance returned by the mixture-model prediction is the
same for every pair of parameter vectors, supplied amplitude vectors and
randomize flags, and it equals the plain sum of the raw per-process variance
rows of the category tensor — it is never rescaled by amplitudes,
normalization multipliers or shape weights. -/
theorem C7_variance_unscaled (fd : FitData) (cat : CategoryData)
    (params params2 : List ℝ) (pa pa2 : Option (List ℝ)) (r r2 : Bool) :
    (mixture_model fd params cat pa r).2 = (mixture_model fd params2 cat pa2 r2).2
    ∧ (mixture_model fd params cat pa r).2
        = (cat.model.map ProcRow.var).foldr vecAdd (List.replicate cat.data_val.length 0) :=
  ⟨rfl, rfl⟩

/-! ## Claim C9 -/

/-- Claim C9: every entry of the masked normalization-parameter matrix that is
exactly zero — whether masked off or an active parameter whose current value
is exactly zero — is replaced by one before the per-process product is taken;
in particular a normalization nuisance at value 0 contributes exactly what it
would contribute at value 1. -/
theorem C9_zero_norm_as_identity (fd : FitData) (cat : CategoryData) (params : List ℝ) :
    norm_multipliers fd cat params = cat.norm_mask.map (fun row =>
      ((row.zip ((params.drop fd.npoi).take fd.nnorm)).map
        (fun t => if t.1 * t.2 = 0 then 1 else t.1 * t.2)).prod)
    ∧ ∀ (a b u v : List ℝ), a.length = u.length →
        row_multiplier (a ++ 1 :: b) (u ++ 0 :: v)
          = row_multiplier (a ++ 1 :: b) (u ++ 1 :: v) := by
  constructor
  · simp only [norm_multipliers, row_multiplier, zipWith_mul_eq_map_zip, List.map_map]
    rfl
  · intro a b u v h
    simp only [row_multiplier, zipWith_mul_eq_map_zip, List.zip_append h,
      List.map_append, List.prod_append, List.map_cons, List.prod_cons]
    norm_num

/-- Witness for C9 with a two-entry mask row whose second normalization
parameter is active and has value zero. -/
theorem C9_witness : row_multiplier [1, 1] [5, 0] = row_multiplier [1, 1] [5, 1] :=
  (C9_zero_norm_as_identity exFit6 exCat8 exParams1).2 [1] [] [5] [] rfl

/-! ## Claim C6 -/

/-- Claim C6: the stored tensor rows per shape parameter are
`delta_plus = (up - nominal) + (down - nominal)` and
`delta_minus = (up - nominal) - (down - nominal)` when the parameter is
present, active and applicable, and both are zero rows otherwise; the morphed
per-process prediction for a category with one masked shape parameter of value
`s` is `nominal + 0.5*s^2*delta_plus + 0.5*s*delta_minus`. -/
theorem C6_quadratic_morphing (fd : FitData) (cat : CategoryData) (params : List ℝ)
    (p : ProcRow) (dp dm : List ℝ) (s : ℝ)
    (hmask : maskFilter cat.shape_param_mask (params.drop (fd.npoi + fd.nnorm)) = [s])
    (hdp : p.delta_plus = [dp]) (hdm : p.delta_minus = [dm])
    (hval : p.val.length = cat.data_val.length)
    (hvar : p.var.length = cat.data_val.length)
    (hldp : dp.length = cat.data_val.length)
    (hldm : dm.length = cat.data_val.length) :
    morph_process p (shape_weights fd cat params) cat.data_val.length
      = vecAdd p.val (vecAdd (vecScale (0.5 * s ^ 2) dp) (vecScale (0.5 * s) dm))
    ∧ (∀ up down val2 : List ℝ,
        shape_deltas true true true up down val2
          = (vecAdd (vecSub up val2) (vecSub down val2),
             vecSub (vecSub up val2) (vecSub down val2)))
    ∧ (∀ (hu a ap : Bool) (up down val2 : List ℝ), (hu && a && ap) = false →
        shape_deltas hu a ap up down val2
          = (List.replicate val2.length 0, List.replicate val2.length 0)) := by
  refine ⟨?_, fun up down val2 => rfl, ?_⟩
  · have hw : shape_weights fd cat params = [1, 0, 0.5 * s ^ 2, 0.5 * s] := by
      simp [shape_weights, hmask]
    rw [hw]
    simp only [morph_process, dotRows, hdp, hdm, List.cons_append, List.nil_append,
      List.zipWith, List.foldr]
    rw [vecScale_one]
    rw [vecAdd_replicate_right (vecScale (0.5 * s) dm) cat.data_val.length
      (by rw [vecScale_length, hldm])]
    rw [vecScale_zero]
    rw [hvar]
    rw [vecAdd_replicate_left (vecAdd (vecScale (0.5 * s ^ 2) dp) (vecScale (0.5 * s) dm))
      cat.data_val.length
      (by rw [vecAdd_length, vecScale_length, vecScale_length, hldp, hldm, min_self])]
  · intro hu a ap up down val2 hfalse
    simp only [shape_deltas, hfalse, Bool.false_eq_true, if_false]
    exact Prod.ext (vecAdd_replicate_right _ _ (by simp)) (vecSub_replicate_zero _)

/-- Witness for C6 at one bin with nominal value 1, `delta_plus = [3]`,
`delta_minus = [5]` and shape-parameter value 2. -/
theorem C6_witness :
    morph_process exProc6 (shape_weights exFit6 exCat6 exParams6) 1
      = vecAdd [1] (vecAdd (vecScale (0.5 * 2 ^ 2) [3]) (vecScale (0.5 * 2) [5])) :=
  (C6_quadratic_morphing exFit6 exCat6 exParams6 exProc6 [3] [5] 2
    rfl rfl rfl rfl rfl rfl rfl).1

/-! ## Claim C8 -/

/-- Claim C8: for a category whose tensor holds exactly one unmasked process
with masked amplitude ratio 1 and in which no normalization or shape nuisance
is active (all-zero normalization mask row, zero shape delta rows), the
mixture-model prediction returns the process's nominal values unchanged. -/
theorem C8_single_process_identity (fd : FitData) (cat : CategoryData)
    (params pa : List ℝ) (p : ProcRow) (row : List ℝ)
    (hmodel : cat.model = [p])
    (hnorm : cat.norm_mask = [row]) (hrow : ∀ x ∈ row, x = 0)
    (hamp : maskFilter cat.process_mask pa = [1])
    (hval : p.val.length = cat.data_val.length)
    (hvar : p.var.length = cat.data_val.length)
    (hdp : ∀ r ∈ p.delta_plus, r = List.replicate cat.data_val.length 0)
    (hdm : ∀ r ∈ p.delta_minus, r = List.replicate cat.data_val.length 0) :
    (mixture_model fd params cat (some pa) false).1 = p.val := by
  have hmult : norm_multipliers fd cat params = [1] := by
    simp [norm_multipliers, hnorm, row_multiplier_zero_row row _ hrow]
  have hmorph : morph_process p (shape_weights fd cat params) cat.data_val.length = p.val := by
    simp only [morph_process, shape_weights, dotRows, List.cons_append, List.nil_append,
      List.zipWith, List.foldr]
    rw [dot_zero_rows _ _ _ (by
      intro r hr
      rcases List.mem_append.mp hr with h1 | h2
      · exact hdp r h1
      · exact hdm r h2)]
    rw [vecScale_one, vecScale_zero, hvar]
    rw [vecAdd_replicate_right (List.replicate cat.data_val.length 0) cat.data_val.length
      (by simp)]
    exact vecAdd_replicate_right _ _ hval
  simp only [mixture_model, Option.getD_some, hmodel, hmult, hamp, List.map_cons,
    List.map_nil, hmorph]
  simp only [dotRows, List.zipWith, List.foldr, one_mul, Bool.false_eq_true, if_false]
  rw [vecScale_one]
  exact vecAdd_replicate_right _ _ hval

/-- Witness for C8: a two-bin category with one included process of nominal
values 3 and 4 returns exactly those values. -/
theorem C8_witness :
    (mixture_model exFit6 exParams1 exCat8 (some [1, 9]) false).1 = [3, 4] :=
  C8_single_process_identity exFit6 exCat8 exParams1 [1, 9] exProc8 []
    rfl rfl (fun x hx => absurd hx (List.not_mem_nil x)) rfl rfl rfl
    (fun r hr => absurd hr (List.not_mem_nil r)) (fun r hr => absurd hr (List.not_mem_nil r))

/-! ## Claim C10 -/

theorem elim_pair_fst {β γ : Type} (X : Option β) (c c2 : γ) (f : β → Option ℝ × γ) :
    (X.elim ((none : Option ℝ), c) f).1 = (X.elim (none, c2) f).1 := by
  cases X <;> rfl

theorem category_cost_fst_cache_indep (fd : FitData) (params : List ℝ)
    (cat : CategoryData) (pa : List ℝ) (data : Option (List ℝ × List ℝ)) (ct : CostType)
    (ns dms rand : Bool) (cache cache2 : List ℝ) :
    (category_cost fd params cat pa data ct ns dms rand cache).1
      = (category_cost fd params cat pa data ct ns dms rand cache2).1 := by
  have hbb : ∀ a b c : List ℝ, bb_bin_amps cache a b c = bb_bin_amps cache2 a b c :=
    fun a b c => bb_amp_list_cache_indep cache cache2 _
  cases dms with
  | false => rfl
  | true =>
    simp only [category_cost, reduceIte]
    rw [hbb]
    exact elim_pair_fst _ cache cache2 _

theorem categories_cost_fst_cache_indep (fd : FitData) (params : List ℝ) (pa : List ℝ)
    (data : Option (String → List ℝ × List ℝ)) (ct : CostType) (ns dms rand : Bool) :
    ∀ (cats : List CategoryData) (cache cache2 : List (List ℝ)),
    (categories_cost fd params pa data ct ns dms rand cats cache).1
      = (categories_cost fd params pa data ct ns dms rand cats cache2).1 := by
  intro cats
  induction cats with
  | nil => intro c c2; rfl
  | cons cat cats ih =>
    intro c c2
    by_cases h : cat.name ∈ fd.veto_list
    · simp only [categories_cost, if_pos h]
      exact ih c.tail c2.tail
    · simp only [categories_cost, if_neg h]
      rw [category_cost_fst_cache_indep fd params cat pa _ ct ns dms rand
        (c.headD []) (c2.headD [])]
      simp only [ih c.tail c2.tail]

/-- Claim C10: the Barlow-Beeston auxiliary solve never reads its first
argument (the cached per-bin nuisance state), and the cost returned by the
objective is independent of the cache contents left behind by any earlier
call — two successive calls with the same inputs return the identical cost. -/
theorem C10_cache_independence :
    (∀ (x y d m v : ℝ), bb_objective_aux x d m v = bb_objective_aux y d m v)
    ∧ ∀ (fd : FitData) (params : List ℝ) (data : Option (String → List ℝ × List ℝ))
        (ct : CostType) (ns dms rt : Bool) (cache cache2 : List (List ℝ)),
        (objective fd params data ct ns dms rt cache).1
          = (objective fd params data ct ns dms rt cache2).1 := by
  refine ⟨fun x y d m v => rfl, ?_⟩
  intro fd params data ct ns dms rt cache cache2
  simp only [objective]
  rw [categories_cost_fst_cache_indep fd params _ data ct ns dms rt fd.categories cache cache2]

/-! ## Claim C1 -/

theorem category_cost_no_mcstat (fd : FitData) (params : List ℝ) (cat : CategoryData)
    (pa : List ℝ) (data : Option (List ℝ × List ℝ)) (ct : CostType) (rand : Bool)
    (cache : List ℝ) :
    category_cost fd params cat pa data ct false false rand cache
      = (some (nll_of ct (data.getD (cat.data_val, cat.data_var)).1
          (data.getD (cat.data_val, cat.data_var)).2
          (mixture_model fd params cat (some pa) rand).1
          (mixture_model fd params cat (some pa) rand).2), cache) := rfl

theorem categories_cost_no_mcstat (fd : FitData) (params : List ℝ) (pa : List ℝ)
    (ct : CostType) (rand : Bool) :
    ∀ (cats : List CategoryData) (cache : List (List ℝ)),
    (categories_cost fd params pa none ct false false rand cats cache).1
      = some ((cats.map (fun cat => if cat.name ∈ fd.veto_list then 0
          else nll_of ct cat.data_val cat.data_var
            (mixture_model fd params cat (some pa) rand).1
            (mixture_model fd params cat (some pa) rand).2)).sum) := by
  intro cats
  induction cats with
  | nil => intro cache; rfl
  | cons cat cats ih =>
    intro cache
    by_cases h : cat.name ∈ fd.veto_list
    · simp only [categories_cost, if_pos h, ih cache.tail, List.map_cons, List.sum_cons]
      try simp [h]
    · simp only [categories_cost, if_neg h, Option.map_none', category_cost_no_mcstat,
        Option.getD_none, ih cache.tail, Option.some_bind, Option.map_some',
        List.map_cons, List.sum_cons]
      try simp [h]

/-- Claim C1 (amended): for branching fractions inside (0, 1) and
`do_mc_stat = false`, the Poisson objective is the sum, over non-vetoed
categories and over the bins passing the mask `model > 0` and `data > 0`, of
`-data*ln(model) + model + (data*ln(data) - data)` — the source adds the
saturated-likelihood term `data*ln(data) - data` on the same mask, which the
claim omits — plus the nuisance priors and the branching-fraction-sum
constraint, and nothing else; bins failing the mask contribute nothing. -/
theorem C1_poisson_cost (fd : FitData) (params : List ℝ) (cache : List (List ℝ))
    (hb : ∀ x ∈ params.take 4, 0 < x ∧ x < 1) :
    (objective fd params none CostType.poisson false false false cache).1
      = some (((fd.categories.map (fun cat => if cat.name ∈ fd.veto_list then 0
          else ((cat.data_val.zip
              (mixture_model fd params cat
                (some (process_amplitudes_of fd params)) false).1).map
            (fun t => if 0 < t.2 ∧ 0 < t.1 then
                -t.1 * Real.log t.2 + t.2 + (t.1 * Real.log t.1 - t.1) else 0)).sum)).sum
        + prior_cost fd params + beta_constraint params : ℝ) : EReal) := by
  have hnot : ¬∃ x ∈ params.take 4, x ≤ 0 ∨ 1 ≤ x := by
    rintro ⟨x, hx, hor⟩
    rcases hb x hx with ⟨h1, h2⟩
    rcases hor with h3 | h3 <;> linarith
  simp only [objective]
  rw [if_neg hnot]
  rw [categories_cost_no_mcstat fd params (process_amplitudes_of fd params)
    CostType.poisson false fd.categories cache]
  simp only [Option.map_some', nll_of, poisson_nll]

/-- Witness for the amended C1 at the concrete one-category engine `exFit1`. -/
theorem C1_witness :
    (objective exFit1 exParams1 none CostType.poisson false false false [[1]]).1
      = some (((exFit1.categories.map (fun cat => if cat.name ∈ exFit1.veto_list then 0
          else ((cat.data_val.zip
              (mixture_model exFit1 exParams1 cat
                (some (process_amplitudes_of exFit1 exParams1)) false).1).map
            (fun t => if 0 < t.2 ∧ 0 < t.1 then
                -t.1 * Real.log t.2 + t.2 + (t.1 * Real.log t.1 - t.1) else 0)).sum)).sum
        + prior_cost exFit1 exParams1 + beta_constraint exParams1 : ℝ) : EReal) :=
  C1_poisson_cost exFit1 exParams1 [[1]] (by
    intro x hx
    rw [show exParams1.take 4 = [(1 : ℝ) / 4, 1 / 4, 1 / 4, 1 / 4] from rfl] at hx
    simp at hx
    subst hx
    norm_num)

/-- Counterexample for C1 as stated: on a one-bin category with data 2 and
model 1, the objective evaluates to `2*ln 2 - 1` (the saturated term is
present), not to the claim's `-2*ln 1 + 1 = 1`. -/
theorem C1_counterexample :
    (objective exFit1 exParams1 none CostType.poisson false false false [[1]]).1
      = some ((2 * Real.log 2 - 1 : ℝ) : EReal)
    ∧ (objective exFit1 exParams1 none CostType.poisson false false false [[1]]).1
      ≠ some ((-2 * Real.log 1 + 1 : ℝ) : EReal) := by
  have hnot : ¬∃ x ∈ exParams1.take 4, x ≤ 0 ∨ 1 ≤ x := by
    rintro ⟨x, hx, hor⟩
    rw [show exParams1.take 4 = [(1 : ℝ) / 4, 1 / 4, 1 / 4, 1 / 4] from rfl] at hx
    simp at hx
    subst hx
    rcases hor with h | h <;> norm_num at h
  have hval : (objective exFit1 exParams1 none CostType.poisson false false false [[1]]).1
      = some ((2 * Real.log 2 - 1 : ℝ) : EReal) := by
    simp only [objective]
    rw [if_neg hnot]
    rw [categories_cost_no_mcstat exFit1 exParams1
      (process_amplitudes_of exFit1 exParams1) CostType.poisson false exFit1.categories [[1]]]
    simp only [Option.map_some', Option.some.injEq, EReal.coe_eq_coe_iff]
    norm_num [exFit1, exCat1, exProc1, exParams1, nll_of, poisson_nll, mixture_model,
      norm_multipliers, row_multiplier, shape_weights, morph_process, dotRows, maskFilter,
      process_amplitudes_of, ww_amp_init, w_amp_init, signal_amplitudes, vecAdd, vecScale,
      prior_cost, beta_constraint, Real.log_one]
    ring
  refine ⟨hval, ?_⟩
  rw [hval]
  simp only [Ne, Option.some.injEq, EReal.coe_eq_coe_iff]
  intro hEq
  rw [Real.log_one] at hEq
  have h2 : Real.log 2 < 1 := lt_trans Real.log_two_lt_d9 (by norm_num)
  linarith

/-- Counterexample for C3 as stated: on a one-bin category whose model value
is exactly zero, the objective with `do_mc_stat = true` is contaminated by the
unguarded Barlow-Beeston division (`none`), instead of skipping the bin's
correction and returning the finite cost 0 that the claimed `beta = 1` policy
would give. -/
theorem C3_counterexample :
    (objective exFit3 exParams1 none CostType.poisson false true false [[1]]).1 = none
    ∧ (objective exFit3 exParams1 none CostType.poisson false true false [[1]]).1
      ≠ some ((0 : ℝ) : EReal) := by
  have hnot : ¬∃ x ∈ exParams1.take 4, x ≤ 0 ∨ 1 ≤ x := by
    rintro ⟨x, hx, hor⟩
    rw [show exParams1.take 4 = [(1 : ℝ) / 4, 1 / 4, 1 / 4, 1 / 4] from rfl] at hx
    simp at hx
    subst hx
    rcases hor with h | h <;> norm_num at h
  have hval : (objective exFit3 exParams1 none CostType.poisson false true false [[1]]).1
      = none := by
    simp only [objective]
    rw [if_neg hnot]
    norm_num [categories_cost, category_cost, bb_bin_amps, bb_amp_list, bb_objective_aux,
      Option.elim, mixture_model, norm_multipliers, row_multiplier, shape_weights,
      morph_process, dotRows, maskFilter, process_amplitudes_of, ww_amp_init, w_amp_init,
      signal_amplitudes, vecAdd, vecScale, exFit3, exCat3, exProc3, exParams1]
  refine ⟨hval, ?_⟩
  rw [hval]
  exact fun h => Option.noConfusion h

/-! ## Claim C4 -/

/-- Claim C4: whenever any of the first four parameters lies outside the open
interval (0, 1), the objective returns positive infinity, independently of the
supplied data, the cost type, the `no_shape`, `do_mc_stat` and
`randomize_templates` flags, the cache state and all other parameter
entries. -/
theorem C4_hard_rejection (fd : FitData) (params : List ℝ)
    (data : Option (String → List ℝ × List ℝ)) (ct : CostType)
    (no_shape do_mc_stat randomize_templates : Bool) (cache : List (List ℝ))
    (h : ∃ x ∈ params.take 4, x ≤ 0 ∨ 1 ≤ x) :
    (objective fd params data ct no_shape do_mc_stat randomize_templates cache).1
      = some ⊤ := by
  simp only [objective]
  rw [if_pos h]

/-- Witness for C4 at a concrete engine and parameter vector whose first entry
is 2, with chi-square cost and all flags enabled. -/
theorem C4_witness :
    (objective exFit1 exParams4 none CostType.chi2 true true true [[5]]).1 = some ⊤ :=
  C4_hard_rejection exFit1 exParams4 none CostType.chi2 true true true [[5]]
    ⟨2, by
      rw [show exParams4.take 4 = [(2 : ℝ), 1 / 4, 1 / 4, 1 / 4] from rfl]
      exact List.mem_cons_self _ _,
     Or.inr (by norm_num)⟩

end

end FitHelpers
